import Mathlib

/-!
Verification of the security-sentinel scanner against its specification.

The JavaScript sources are shallowly embedded: banners are lists of
characters, the regular expressions used by the code are modelled as
explicit scanning functions with the same leftmost-match and greedy
semantics, socket probes are modelled as total functions from the
observable socket outcome (banner / error / timeout) to the value the
check resolves, and the Vulners response parser is modelled with an
Except monad so that the implicit JavaScript TypeError on an unknown
severity becomes an explicit error value.

Character-level caveat: JavaScript toLowerCase and the regex i-flag are
Unicode aware while the model lowers only ASCII letters.  For every
keyword and severity literal appearing in the code (all ASCII, none
containing the letter k) the two agree on all inputs, because the only
code points whose Unicode lowering produces extra ASCII letters are
U+212A (to k) and U+0130 (to i followed by a combining dot, which never
completes any of the keywords).
-/

/-- Characters matched by the JavaScript regex class backslash-s
(whitespace), covering the ASCII and Unicode space code points that the
ECMAScript standard lists. -/
def isJsSpace (c : Char) : Bool :=
  c = ' ' || c = '\t' || c = '\n' || c = Char.ofNat 11 || c = Char.ofNat 12 || c = '\r' ||
  c = Char.ofNat 0xa0 || c = Char.ofNat 0x1680 ||
  (0x2000 ≤ c.toNat && c.toNat ≤ 0x200a) ||
  c = Char.ofNat 0x2028 || c = Char.ofNat 0x2029 || c = Char.ofNat 0x202f ||
  c = Char.ofNat 0x205f || c = Char.ofNat 0x3000 || c = Char.ofNat 0xfeff

/-- Characters matched by the class [backslash-d .] of the version
patterns: decimal digits and the full stop. -/
def isDigitDot (c : Char) : Bool :=
  c.isDigit || c = '.'

/-- JavaScript String.prototype.includes, on character lists:
jsIncludes hay sub is true when sub occurs contiguously in hay. -/
def jsIncludes (hay sub : List Char) : Bool :=
  if sub.isPrefixOf hay then true
  else
    match hay with
    | [] => false
    | _ :: rest => jsIncludes rest sub

/-- One attempt of the regex kw[-s]?([d.]+) (case-insensitive, as built
by inferSystemDetails) at the head of s.  The optional class is greedy:
it first consumes a dash or space; since dash and space are not digits,
the regex backtracking to the empty option can never succeed afterwards,
so a failed digit run after the separator fails the whole position. -/
def matchKeywordVersionAt (kw s : List Char) : Option (List Char) :=
  if (s.take kw.length).map Char.toLower = kw then
    match s.drop kw.length with
    | c :: rs =>
      if c = '-' || isJsSpace c then
        let run := rs.takeWhile isDigitDot
        if run.isEmpty then none else some run
      else
        let run := (c :: rs).takeWhile isDigitDot
        if run.isEmpty then none else some run
    | [] => none
  else none

/-- Leftmost match of the keyword-anchored version pattern: the capture
of banner.match(new RegExp(kw + "[-s]?([d.]+)", "i")). -/
def findKeywordVersion (kw : List Char) : List Char → Option (List Char)
  | [] => matchKeywordVersionAt kw []
  | s@(_ :: rest) =>
    match matchKeywordVersionAt kw s with
    | some r => some r
    | none => findKeywordVersion kw rest

/-- One attempt of the regex SSH-d+.d+-(S+) at the head of the list.
The digit runs are taken greedily; since their follower characters (dot
and dash) are not digits, maximal munch coincides with the backtracking
semantics of the JavaScript engine. -/
def matchSshAt : List Char → Option (List Char)
  | 'S' :: 'S' :: 'H' :: '-' :: rest =>
    let d1 := rest.takeWhile Char.isDigit
    if d1.isEmpty then none
    else
      match rest.drop d1.length with
      | '.' :: r2 =>
        let d2 := r2.takeWhile Char.isDigit
        if d2.isEmpty then none
        else
          match r2.drop d2.length with
          | '-' :: r3 =>
            let tok := r3.takeWhile (fun c => ! isJsSpace c)
            if tok.isEmpty then none else some tok
          | _ => none
      | _ => none
  | _ => none

/-- Capture of banner.match of SSH-d+.d+-(S+): the first (leftmost)
SSH software token of the banner, if any. -/
def sshSoftwareMatch : List Char → Option (List Char)
  | [] => none
  | s@(_ :: rest) =>
    match matchSshAt s with
    | some t => some t
    | none => sshSoftwareMatch rest

/-- JavaScript String.prototype.split with separator underscore: splits
at every underscore and keeps empty segments, always returning at least
one segment. -/
def splitU : List Char → List (List Char)
  | [] => [[]]
  | c :: rest =>
    if c = '_' then
      [] :: splitU rest
    else
      match splitU rest with
      | s :: ss => (c :: s) :: ss
      | [] => [[c]]

/-- The characters strictly before the first underscore (the whole list
when no underscore occurs). -/
def beforeUnderscore : List Char → List Char
  | [] => []
  | c :: rest => if c = '_' then [] else c :: beforeUnderscore rest

/-- The characters strictly after the first underscore, or none when no
underscore occurs. -/
def afterUnderscore : List Char → Option (List Char)
  | [] => none
  | c :: rest => if c = '_' then some rest else afterUnderscore rest

/-- The operating_system record built by inferSystemDetails: a fixed
part tag and three string fields. -/
structure OsIdent where
  part : String
  vendor : String
  product : String
  version : String
deriving DecidableEq

/-- A software entry pushed by inferSystemDetails.  The version field is
an Option because the JavaScript destructuring of split leaves version
undefined when the token has no underscore. -/
structure SoftIdent where
  part : String
  vendor : String
  product : String
  version : Option String
deriving DecidableEq

/-- The full result of inferSystemDetails. -/
structure SystemIdentity where
  operating_system : OsIdent
  software : List SoftIdent
deriving DecidableEq

/-- The ordered keyword-to-vendor table of inferSystemDetails, in the
insertion order of the JavaScript object literal (which Object.entries
preserves for string keys). -/
def vendorTable : List (String × String) :=
  [("ubuntu", "canonical"), ("debian", "debian"), ("centos", "centos"),
   ("enterprise_linux", "redhat"), ("fedora", "fedora"),
   ("alpine_linux", "alpine"), ("amazon_linux", "amazon")]

/-- Version string for a matched keyword: the capture of the anchored
pattern, or the literal sentinel unknown. -/
def osVersion (kw banner : List Char) : String :=
  match findKeywordVersion kw banner with
  | some cap => String.mk cap
  | none => "unknown"

/-- The OS-inference loop of inferSystemDetails: scan the table in
order, case-insensitive substring test against the banner, break on the
first match, defaults when the table is exhausted. -/
def inferOS : List (String × String) → List Char → OsIdent
  | [], _ => ⟨"o", "unknown", "unknown", "unknown"⟩
  | (product, vendorName) :: rest, banner =>
    if jsIncludes (banner.map Char.toLower) product.data then
      ⟨"o", vendorName, product, osVersion product.data banner⟩
    else
      inferOS rest banner

/-- The SSH-software branch of inferSystemDetails: on a match the token
is split on underscores, the destructuring takes segment zero as the
product (lower-cased) and segment one as the version. -/
def inferSoftware (banner : List Char) : List SoftIdent :=
  match sshSoftwareMatch banner with
  | none => []
  | some tok =>
    let segs := splitU tok
    [⟨"a", "openbsd", String.mk ((segs.headD []).map Char.toLower),
      (segs[1]?).map String.mk⟩]

/-- inferSystemDetails from part_003: operating system and software
inference over a raw banner. -/
def inferSystemDetails (banner : List Char) : SystemIdentity :=
  { operating_system := inferOS vendorTable banner
    software := inferSoftware banner }

/-- The metrics.cvss object of a Vulners finding. -/
structure Cvss where
  score : String
  severity : String
deriving DecidableEq

/-- The metrics object of a Vulners finding. -/
structure VulnMetrics where
  cvss : Cvss
deriving DecidableEq

/-- One vulnerability object of the Vulners audit response. -/
structure RawVuln where
  title : String
  short_description : String
  ai_score : Option String
  metrics : VulnMetrics
deriving DecidableEq

/-- One element of the result list of the Vulners audit response. -/
structure ApiEntry where
  vulnerabilities : List RawVuln
deriving DecidableEq

/-- The audit response: its result field is absent or falsy (none) or a
list of entries. -/
structure ApiResponse where
  result : Option (List ApiEntry)
deriving DecidableEq

/-- The record pushed into a severity bucket by parseVulnerabilities. -/
structure ParsedVuln where
  title : String
  description : String
  ai_score : Option String
  cvss_score : String
  cvss_severity : String
deriving DecidableEq

/-- The four-bucket object that parseVulnerabilities initialises and
returns: exactly the keys low, medium, high and critical. -/
structure VulnBuckets where
  low : List ParsedVuln
  medium : List ParsedVuln
  high : List ParsedVuln
  critical : List ParsedVuln
deriving DecidableEq

/-- The object literal pushed for one finding. -/
def toParsed (v : RawVuln) : ParsedVuln :=
  ⟨v.title, v.short_description, v.ai_score, v.metrics.cvss.score, v.metrics.cvss.severity⟩

/-- JavaScript String.prototype.toLowerCase on ASCII data. -/
def jsToLower (s : String) : String :=
  String.mk (s.data.map Char.toLower)

/-- The lower-cased severity key computed for one finding. -/
def sevLower (v : RawVuln) : String :=
  jsToLower v.metrics.cvss.severity

/-- True when the lower-cased severity is one of the four bucket keys. -/
def recognizedSeverity (v : RawVuln) : Bool :=
  sevLower v == "low" || sevLower v == "medium" || sevLower v == "high" ||
    sevLower v == "critical"

/-- One push of vulnerabilities[severity].push(...): indexing with a key
other than the four bucket keys yields undefined, whose push method does
not exist, so JavaScript throws a TypeError, modelled as an error. -/
def pushVuln (b : VulnBuckets) (v : RawVuln) : Except String VulnBuckets :=
  if sevLower v = "low" then .ok { b with low := b.low ++ [toParsed v] }
  else if sevLower v = "medium" then .ok { b with medium := b.medium ++ [toParsed v] }
  else if sevLower v = "high" then .ok { b with high := b.high ++ [toParsed v] }
  else if sevLower v = "critical" then .ok { b with critical := b.critical ++ [toParsed v] }
  else .error "TypeError: vulnerabilities[severity].push is undefined"

/-- The inner forEach over one entry's vulnerabilities, stopping at the
first thrown error. -/
def pushList : VulnBuckets → List RawVuln → Except String VulnBuckets
  | b, [] => .ok b
  | b, v :: rest =>
    match pushVuln b v with
    | .ok b2 => pushList b2 rest
    | .error e => .error e

/-- The outer forEach over the result list. -/
def parseEntries : VulnBuckets → List ApiEntry → Except String VulnBuckets
  | b, [] => .ok b
  | b, e :: rest =>
    match pushList b e.vulnerabilities with
    | .ok b2 => parseEntries b2 rest
    | .error err => .error err

/-- parseVulnerabilities from vulners-api.js: initialise the four empty
buckets, iterate when result and result.result are truthy, return the
buckets; a severity outside the four keys throws. -/
def parseVulnerabilities (input : Option ApiResponse) : Except String VulnBuckets :=
  match input with
  | none => .ok ⟨[], [], [], []⟩
  | some r =>
    match r.result with
    | none => .ok ⟨[], [], [], []⟩
    | some entries => parseEntries ⟨[], [], [], []⟩ entries

/-- The findings of a response flattened in response order: outer result
order, then nested vulnerability order. -/
def flatVulns : List ApiEntry → List RawVuln
  | [] => []
  | e :: rest => e.vulnerabilities ++ flatVulns rest

/-- The findings that land in the bucket named key, in response order. -/
def bucketOf (key : String) (l : List RawVuln) : List ParsedVuln :=
  (l.filter fun v => sevLower v == key).map toParsed

/-- Appending the bucketed findings of l to existing buckets. -/
def appendBuckets (b : VulnBuckets) (l : List RawVuln) : VulnBuckets :=
  ⟨b.low ++ bucketOf "low" l, b.medium ++ bucketOf "medium" l,
   b.high ++ bucketOf "high" l, b.critical ++ bucketOf "critical" l⟩


namespace Part003

/-- Observable socket outcomes of getHostBanner in part_003: a first
data chunk, a socket error, or expiry of the 5-second timer. -/
inductive BannerEvent where
  | dataReceived (chunk : List Char)
  | socketError (message : String)
  | socketTimeout
deriving DecidableEq

/-- The socket.setTimeout argument of getHostBanner. -/
def getHostBannerTimeoutMs : Option Nat := some 5000

/-- getHostBanner from part_003, per observable outcome: the settled
promise value and whether socket.destroy was called on that path. -/
def getHostBannerRun : BannerEvent → Except String (List Char) × Bool
  | .dataReceived chunk => (.ok chunk, true)
  | .socketError message => (.error message, true)
  | .socketTimeout => (.error "Connection timed out", true)

/-- testMySQLService from part_003, as a function of the getHostBanner
outcome: a truthy banner is insecure; a caught error whose message
mentions the timeout or ECONNREFUSED is secure; every other path falls
through to the final return false. -/
def testMySQLService (r : Except String (List Char)) : Bool :=
  match r with
  | .ok banner => if ! banner.isEmpty then false else false
  | .error msg =>
    if jsIncludes msg.data "Connection timed out".data
        || jsIncludes msg.data "ECONNREFUSED".data then true
    else false

end Part003

namespace NetworkJs

/-- Observable outcomes of the raw net.Socket used by the callback-style
testMySQLService in bin/network.js: the connect callback fires, an error
event fires, or the 5-second timer fires. -/
inductive SocketEvent where
  | connected
  | errored (message : String)
  | timedOut
deriving DecidableEq

/-- Observable outcomes of the banner-reading checks of bin/network.js:
a first data chunk after connect, an error event, or timer expiry. -/
inductive DataEvent where
  | dataReceived (banner : List Char)
  | errored (message : String)
  | timedOut
deriving DecidableEq

/-- The socket.setTimeout argument of testMySQLService in network.js. -/
def mysqlTimeoutMs : Option Nat := some 5000

/-- The socket.setTimeout argument of testEmailServiceWithoutTLS. -/
def mailTimeoutMs : Option Nat := some 5000

/-- The socket.setTimeout argument of testOpenSSHVersion. -/
def sshTimeoutMs : Option Nat := some 5000

/-- testSelfSignedCertificate (identical in network.js and part_003)
calls tls.connect without any setTimeout or timeout handler. -/
def selfSignedTimeoutMs : Option Nat := none

/-- testMySQLService from bin/network.js, per socket event: the resolved
boolean and whether socket.destroy was called on that path (the error
handler resolves without destroying). -/
def testMySQLServiceRun : SocketEvent → Bool × Bool
  | .connected => (false, true)
  | .errored _ => (true, false)
  | .timedOut => (true, true)

/-- The resolved value of testMySQLService from bin/network.js. -/
def testMySQLService (ev : SocketEvent) : Bool :=
  (testMySQLServiceRun ev).1

/-- testEmailServiceWithoutTLS from bin/network.js, per data event:
insecure when the banner advertises ESMTP without STARTTLS. -/
def testEmailServiceWithoutTLSRun : DataEvent → Bool × Bool
  | .dataReceived banner =>
    (if jsIncludes banner "ESMTP".data && ! jsIncludes banner "STARTTLS".data
      then false else true, true)
  | .errored _ => (true, false)
  | .timedOut => (true, true)

/-- One attempt of the regex OpenSSH_([d.]+) at the head of the list. -/
def matchOpenSshAt : List Char → Option (List Char)
  | 'O' :: 'p' :: 'e' :: 'n' :: 'S' :: 'S' :: 'H' :: '_' :: rest =>
    let run := rest.takeWhile isDigitDot
    if run.isEmpty then none else some run
  | _ => none

/-- Capture of banner.match of OpenSSH_([d.]+). -/
def openSshVersionMatch : List Char → Option (List Char)
  | [] => none
  | s@(_ :: rest) =>
    match matchOpenSshAt s with
    | some v => some v
    | none => openSshVersionMatch rest

/-- testOpenSSHVersion from bin/network.js, per data event: insecure on
the hard-coded vulnerable version string or an unparsable banner. -/
def testOpenSSHVersionRun : DataEvent → Bool × Bool
  | .dataReceived banner =>
    (match openSshVersionMatch banner with
     | some v => if String.mk v = "8.9p1" then false else true
     | none => false, true)
  | .errored _ => (true, false)
  | .timedOut => (true, true)

/-- The peer certificate fields read by testSelfSignedCertificate: the
issuer object may be absent, and either common name may be absent. -/
structure PeerCert where
  issuer : Option (Option String)
  subjectCN : Option String
deriving DecidableEq

/-- Observable outcomes of the tls.connect call: a completed handshake
with a peer certificate, or an error event.  No timeout path exists
because no timer is installed. -/
inductive TlsEvent where
  | secureConnected (cert : PeerCert)
  | errored (message : String)
deriving DecidableEq

/-- testSelfSignedCertificate (identical text in network.js and
part_003), per event: insecure when the issuer object is truthy and the
issuer common name strictly equals the subject common name (undefined
equals undefined included); the success path calls socket.end, the error
handler resolves false without closing. -/
def testSelfSignedCertificateRun : TlsEvent → Bool × Bool
  | .secureConnected cert =>
    (match cert.issuer with
     | some issuerCN => if issuerCN = cert.subjectCN then false else true
     | none => true, true)
  | .errored _ => (false, false)

end NetworkJs

/-- A DNS resolution error as delivered to the catch block: a code such
as ENOTFOUND and a message. -/
structure DnsError where
  code : String
  message : String
deriving DecidableEq

/-- getIpAddresses (identical in bin/network.js and part_003) as a
function of the resolver outcome: the address list on success, and the
empty list after the catch block for every error, whatever its code.
The function is total, so no exception reaches the caller. -/
def getIpAddresses : Except DnsError (List String) → List String
  | .ok addresses => addresses
  | .error _ => []

/-- C9: for a null or undefined input, and for an object whose result
field is absent or falsy, parseVulnerabilities does not throw and
returns the four-bucket object with every bucket empty. -/
theorem c9_falsy_input_yields_empty_buckets :
    parseVulnerabilities none = .ok ⟨[], [], [], []⟩
    ∧ parseVulnerabilities (some ⟨none⟩) = .ok ⟨[], [], [], []⟩ :=
  ⟨rfl, rfl⟩

/-- C10: getIpAddresses returns the empty sequence on every resolver
failure, whatever the error code, and simply forwards the address list
on success; being a total function of the resolver outcome, it never
propagates an exception to its caller. -/
theorem c10_resolver_failure_yields_empty :
    (∀ e : DnsError, getIpAddresses (Except.error e) = [])
    ∧ (∀ addresses, getIpAddresses (Except.ok addresses) = addresses) :=
  ⟨fun _ => rfl, fun _ => rfl⟩

/-- C7 counterexample: the TLS-certificate probe contradicts the claim
that every socket-based probe enforces a 5-second ceiling and closes the
socket on every exit path; testSelfSignedCertificate installs no timeout
at all, and its error path resolves without closing the socket. -/
theorem c7_counterexample :
    NetworkJs.selfSignedTimeoutMs = none
    ∧ NetworkJs.selfSignedTimeoutMs ≠ some 5000
    ∧ (NetworkJs.testSelfSignedCertificateRun
        (NetworkJs.TlsEvent.errored "read ECONNRESET")).2 = false := by
  refine ⟨rfl, by decide, rfl⟩

/-- C7 (amended): the banner prober and the net.Socket based database,
mail and SSH checks set a 5000 ms socket timeout; the banner prober
fails with the Timeout outcome on expiry and destroys the socket on
every exit path; the standalone checks destroy the socket on the timeout
path but resolve a secure value there instead of failing; the
TLS-certificate check sets no timeout. -/
theorem c7_timeout_and_closure :
    Part003.getHostBannerTimeoutMs = some 5000
    ∧ (∀ ev, (Part003.getHostBannerRun ev).2 = true)
    ∧ Part003.getHostBannerRun Part003.BannerEvent.socketTimeout
        = (Except.error "Connection timed out", true)
    ∧ NetworkJs.mysqlTimeoutMs = some 5000
    ∧ NetworkJs.mailTimeoutMs = some 5000
    ∧ NetworkJs.sshTimeoutMs = some 5000
    ∧ NetworkJs.testMySQLServiceRun NetworkJs.SocketEvent.timedOut = (true, true)
    ∧ NetworkJs.testEmailServiceWithoutTLSRun NetworkJs.DataEvent.timedOut = (true, true)
    ∧ NetworkJs.testOpenSSHVersionRun NetworkJs.DataEvent.timedOut = (true, true)
    ∧ NetworkJs.selfSignedTimeoutMs = none := by
  refine ⟨rfl, ?_, rfl, rfl, rfl, rfl, rfl, rfl, rfl, rfl⟩
  intro ev
  cases ev <;> rfl

/-- C8 counterexample: on a socket fault that is neither a timeout nor a
connection refusal, the part_003 MySQL check returns the very same value
it returns for a successful banner read, so no indeterminate outcome
distinguishable from the insecure outcome exists. -/
theorem c8_counterexample :
    Part003.testMySQLService (Except.error "connect EHOSTUNREACH 192.0.2.1:3306")
      = Part003.testMySQLService (Except.ok "MySQL banner".data)
    ∧ Part003.testMySQLService (Except.ok "MySQL banner".data) = false := by
  exact ⟨by decide, by decide⟩

/-- C8 (amended): the checks return a plain boolean, not a tri-state; on
a socket-level fault whose message mentions neither the timeout text nor
ECONNREFUSED, the part_003 MySQL check logs and returns false, the same
value as the insecure outcome, while the bin/network.js variant returns
true, the same value as the secure outcome; the error is caught, so the
scan continues. -/
theorem c8_connection_error_collapses (m : String)
    (h1 : jsIncludes m.data "Connection timed out".data = false)
    (h2 : jsIncludes m.data "ECONNREFUSED".data = false) :
    Part003.testMySQLService (Except.error m) = false
    ∧ NetworkJs.testMySQLService (NetworkJs.SocketEvent.errored m) = true := by
  constructor
  · simp [Part003.testMySQLService, h1, h2]
  · rfl

/-- Witness for the amended C8 at a concrete host-unreachable fault. -/
theorem c8_witness :
    Part003.testMySQLService (Except.error "connect EHOSTUNREACH 192.0.2.1:3306") = false
    ∧ NetworkJs.testMySQLService
        (NetworkJs.SocketEvent.errored "connect EHOSTUNREACH 192.0.2.1:3306") = true :=
  c8_connection_error_collapses "connect EHOSTUNREACH 192.0.2.1:3306" (by decide) (by decide)

/-- C6 counterexample: the bin/network.js variant of testMySQLService
reports secure on a socket error that is neither a refusal nor a
timeout, contradicting the claim that it reports secure exactly when the
connection is refused or times out. -/
theorem c6_counterexample :
    NetworkJs.testMySQLService
        (NetworkJs.SocketEvent.errored "connect EHOSTUNREACH 198.51.100.7:3306") = true
    ∧ jsIncludes "connect EHOSTUNREACH 198.51.100.7:3306".data "ECONNREFUSED".data = false
    ∧ NetworkJs.SocketEvent.errored "connect EHOSTUNREACH 198.51.100.7:3306"
        ≠ NetworkJs.SocketEvent.timedOut := by
  refine ⟨rfl, by decide, by decide⟩

/-- C6 (amended): the part_003 variant reports secure exactly when the
probe fails with a message mentioning the timeout or ECONNREFUSED, and
insecure on every banner read; the bin/network.js variant reports
insecure exactly on a successful connect, reporting secure on timeout
and on every socket error, refused or not. -/
theorem c6_mysql_exposure_check :
    (∀ r : Except String (List Char),
        Part003.testMySQLService r = true
          ↔ ∃ m, r = Except.error m
              ∧ (jsIncludes m.data "Connection timed out".data
                  || jsIncludes m.data "ECONNREFUSED".data) = true)
    ∧ (∀ chunk : List Char, Part003.testMySQLService (Except.ok chunk) = false)
    ∧ (∀ ev, NetworkJs.testMySQLService ev = true
          ↔ ev ≠ NetworkJs.SocketEvent.connected) := by
  refine ⟨?_, ?_, ?_⟩
  · intro r
    cases r with
    | ok chunk =>
      simp [Part003.testMySQLService]
    | error m =>
      constructor
      · intro ht
        by_cases hc : (jsIncludes m.data "Connection timed out".data
            || jsIncludes m.data "ECONNREFUSED".data) = true
        · exact ⟨m, rfl, hc⟩
        · simp [Part003.testMySQLService, hc] at ht
      · rintro ⟨m2, hm, hcond⟩
        injection hm with hme
        subst hme
        simp [Part003.testMySQLService, hcond]
  · intro chunk
    simp [Part003.testMySQLService]
  · intro ev
    cases ev <;> simp [NetworkJs.testMySQLService, NetworkJs.testMySQLServiceRun]

lemma recognized_cases {v : RawVuln} (h : recognizedSeverity v = true) :
    sevLower v = "low" ∨ sevLower v = "medium" ∨ sevLower v = "high"
      ∨ sevLower v = "critical" := by
  simp only [recognizedSeverity, Bool.or_eq_true, beq_iff_eq] at h
  tauto

lemma bucketOf_cons_eq (key : String) (v : RawVuln) (rest : List RawVuln)
    (h : (sevLower v == key) = true) :
    bucketOf key (v :: rest) = toParsed v :: bucketOf key rest := by
  simp [bucketOf, List.filter_cons, h]

lemma bucketOf_cons_ne (key : String) (v : RawVuln) (rest : List RawVuln)
    (h : (sevLower v == key) = false) :
    bucketOf key (v :: rest) = bucketOf key rest := by
  simp [bucketOf, List.filter_cons, h]

lemma pushList_all_ok : ∀ (l : List RawVuln) (b : VulnBuckets),
    l.all recognizedSeverity = true → pushList b l = .ok (appendBuckets b l) := by
  intro l
  induction l with
  | nil =>
    intro b _
    simp [pushList, appendBuckets, bucketOf]
  | cons v rest ih =>
    intro b h
    simp only [List.all_cons, Bool.and_eq_true] at h
    obtain ⟨hv, hrest⟩ := h
    rcases recognized_cases hv with h1 | h1 | h1 | h1
    · have hpush : pushVuln b v = .ok { b with low := b.low ++ [toParsed v] } := by
        simp [pushVuln, h1]
      simp only [pushList, hpush, ih _ hrest]
      rw [appendBuckets, appendBuckets,
          bucketOf_cons_eq "low" v rest (by rw [h1]; decide),
          bucketOf_cons_ne "medium" v rest (by rw [h1]; decide),
          bucketOf_cons_ne "high" v rest (by rw [h1]; decide),
          bucketOf_cons_ne "critical" v rest (by rw [h1]; decide)]
      simp [List.append_assoc]
    · have hpush : pushVuln b v = .ok { b with medium := b.medium ++ [toParsed v] } := by
        simp [pushVuln, h1]
      simp only [pushList, hpush, ih _ hrest]
      rw [appendBuckets, appendBuckets,
          bucketOf_cons_ne "low" v rest (by rw [h1]; decide),
          bucketOf_cons_eq "medium" v rest (by rw [h1]; decide),
          bucketOf_cons_ne "high" v rest (by rw [h1]; decide),
          bucketOf_cons_ne "critical" v rest (by rw [h1]; decide)]
      simp [List.append_assoc]
    · have hpush : pushVuln b v = .ok { b with high := b.high ++ [toParsed v] } := by
        simp [pushVuln, h1]
      simp only [pushList, hpush, ih _ hrest]
      rw [appendBuckets, appendBuckets,
          bucketOf_cons_ne "low" v rest (by rw [h1]; decide),
          bucketOf_cons_ne "medium" v rest (by rw [h1]; decide),
          bucketOf_cons_eq "high" v rest (by rw [h1]; decide),
          bucketOf_cons_ne "critical" v rest (by rw [h1]; decide)]
      simp [List.append_assoc]
    · have hpush : pushVuln b v = .ok { b with critical := b.critical ++ [toParsed v] } := by
        simp [pushVuln, h1]
      simp only [pushList, hpush, ih _ hrest]
      rw [appendBuckets, appendBuckets,
          bucketOf_cons_ne "low" v rest (by rw [h1]; decide),
          bucketOf_cons_ne "medium" v rest (by rw [h1]; decide),
          bucketOf_cons_ne "high" v rest (by rw [h1]; decide),
          bucketOf_cons_eq "critical" v rest (by rw [h1]; decide)]
      simp [List.append_assoc]

lemma bucketOf_append (key : String) (l1 l2 : List RawVuln) :
    bucketOf key (l1 ++ l2) = bucketOf key l1 ++ bucketOf key l2 := by
  simp [bucketOf, List.filter_append]

lemma appendBuckets_append (b : VulnBuckets) (l1 l2 : List RawVuln) :
    appendBuckets (appendBuckets b l1) l2 = appendBuckets b (l1 ++ l2) := by
  simp [appendBuckets, bucketOf_append, List.append_assoc]

lemma parseEntries_all_ok : ∀ (es : List ApiEntry) (b : VulnBuckets),
    (flatVulns es).all recognizedSeverity = true →
    parseEntries b es = .ok (appendBuckets b (flatVulns es)) := by
  intro es
  induction es with
  | nil =>
    intro b _
    simp [parseEntries, flatVulns, appendBuckets, bucketOf]
  | cons e rest ih =>
    intro b h
    rw [flatVulns] at h
    simp only [List.all_append, Bool.and_eq_true] at h
    obtain ⟨h1, h2⟩ := h
    simp only [parseEntries, pushList_all_ok e.vulnerabilities b h1, ih _ h2]
    rw [appendBuckets_append, flatVulns]

lemma bucket_length_sum : ∀ l : List RawVuln, l.all recognizedSeverity = true →
    (bucketOf "low" l).length + (bucketOf "medium" l).length
      + (bucketOf "high" l).length + (bucketOf "critical" l).length = l.length := by
  intro l
  induction l with
  | nil => intro _; simp [bucketOf]
  | cons v rest ih =>
    intro h
    simp only [List.all_cons, Bool.and_eq_true] at h
    obtain ⟨hv, hrest⟩ := h
    have hs := ih hrest
    rcases recognized_cases hv with h1 | h1 | h1 | h1
    · rw [bucketOf_cons_eq "low" v rest (by rw [h1]; decide),
          bucketOf_cons_ne "medium" v rest (by rw [h1]; decide),
          bucketOf_cons_ne "high" v rest (by rw [h1]; decide),
          bucketOf_cons_ne "critical" v rest (by rw [h1]; decide)]
      simp only [List.length_cons]
      omega
    · rw [bucketOf_cons_ne "low" v rest (by rw [h1]; decide),
          bucketOf_cons_eq "medium" v rest (by rw [h1]; decide),
          bucketOf_cons_ne "high" v rest (by rw [h1]; decide),
          bucketOf_cons_ne "critical" v rest (by rw [h1]; decide)]
      simp only [List.length_cons]
      omega
    · rw [bucketOf_cons_ne "low" v rest (by rw [h1]; decide),
          bucketOf_cons_ne "medium" v rest (by rw [h1]; decide),
          bucketOf_cons_eq "high" v rest (by rw [h1]; decide),
          bucketOf_cons_ne "critical" v rest (by rw [h1]; decide)]
      simp only [List.length_cons]
      omega
    · rw [bucketOf_cons_ne "low" v rest (by rw [h1]; decide),
          bucketOf_cons_ne "medium" v rest (by rw [h1]; decide),
          bucketOf_cons_ne "high" v rest (by rw [h1]; decide),
          bucketOf_cons_eq "critical" v rest (by rw [h1]; decide)]
      simp only [List.length_cons]
      omega

/-- C4: for a response all of whose findings carry a recognized severity,
parseVulnerabilities succeeds with the four-bucket object whose buckets
are exactly the order-preserving severity filters of the flattened
findings, and the bucket sizes sum to the number of findings: no loss,
no duplication. -/
theorem c4_round_trip (entries : List ApiEntry)
    (h : (flatVulns entries).all recognizedSeverity = true) :
    parseVulnerabilities (some ⟨some entries⟩)
        = .ok ⟨bucketOf "low" (flatVulns entries), bucketOf "medium" (flatVulns entries),
               bucketOf "high" (flatVulns entries), bucketOf "critical" (flatVulns entries)⟩
    ∧ (bucketOf "low" (flatVulns entries)).length
        + (bucketOf "medium" (flatVulns entries)).length
        + (bucketOf "high" (flatVulns entries)).length
        + (bucketOf "critical" (flatVulns entries)).length
        = (flatVulns entries).length := by
  constructor
  · show parseEntries ⟨[], [], [], []⟩ entries = _
    rw [parseEntries_all_ok entries _ h]
    simp [appendBuckets]
  · exact bucket_length_sum _ h

/-- Concrete response entries used to witness the C4 round trip. -/
def sampleEntries : List ApiEntry :=
  [⟨[⟨"CVE-A", "first", some "7.1", ⟨⟨"7.5", "HIGH"⟩⟩⟩,
     ⟨"CVE-B", "second", none, ⟨⟨"2.0", "Low"⟩⟩⟩]⟩,
   ⟨[⟨"CVE-C", "third", some "9.9", ⟨⟨"9.8", "critical"⟩⟩⟩]⟩]

/-- Witness for C4 at a concrete three-finding response with mixed-case
severities. -/
theorem c4_witness :
    parseVulnerabilities (some ⟨some sampleEntries⟩)
        = .ok ⟨bucketOf "low" (flatVulns sampleEntries),
               bucketOf "medium" (flatVulns sampleEntries),
               bucketOf "high" (flatVulns sampleEntries),
               bucketOf "critical" (flatVulns sampleEntries)⟩
    ∧ (bucketOf "low" (flatVulns sampleEntries)).length
        + (bucketOf "medium" (flatVulns sampleEntries)).length
        + (bucketOf "high" (flatVulns sampleEntries)).length
        + (bucketOf "critical" (flatVulns sampleEntries)).length
        = (flatVulns sampleEntries).length :=
  c4_round_trip sampleEntries (by decide)

lemma pushVuln_ok_recognized {b b2 : VulnBuckets} {v : RawVuln}
    (h : pushVuln b v = .ok b2) : recognizedSeverity v = true := by
  by_cases h1 : sevLower v = "low"
  · simp [recognizedSeverity, h1]
  by_cases h2 : sevLower v = "medium"
  · simp [recognizedSeverity, h2]
  by_cases h3 : sevLower v = "high"
  · simp [recognizedSeverity, h3]
  by_cases h4 : sevLower v = "critical"
  · simp [recognizedSeverity, h4]
  simp [pushVuln, h1, h2, h3, h4] at h

lemma pushList_ok_all : ∀ (l : List RawVuln) (b b2 : VulnBuckets),
    pushList b l = .ok b2 → l.all recognizedSeverity = true := by
  intro l
  induction l with
  | nil => intro b b2 _; rfl
  | cons v rest ih =>
    intro b b2 h
    cases hp : pushVuln b v with
    | error e =>
      simp only [pushList] at h
      rw [hp] at h
      simp at h
    | ok b1 =>
      simp only [pushList] at h
      rw [hp] at h
      have hv := pushVuln_ok_recognized hp
      have hr := ih b1 b2 h
      simp [List.all_cons, hv, hr]

lemma parseEntries_ok_all : ∀ (es : List ApiEntry) (b b2 : VulnBuckets),
    parseEntries b es = .ok b2 → (flatVulns es).all recognizedSeverity = true := by
  intro es
  induction es with
  | nil => intro b b2 _; rfl
  | cons e rest ih =>
    intro b b2 h
    cases hp : pushList b e.vulnerabilities with
    | error err =>
      simp only [parseEntries] at h
      rw [hp] at h
      simp at h
    | ok b1 =>
      simp only [parseEntries] at h
      rw [hp] at h
      rw [flatVulns]
      simp only [List.all_append, Bool.and_eq_true]
      exact ⟨pushList_ok_all _ _ _ hp, ih b1 b2 h⟩

/-- C5: a response containing at least one finding whose severity does
not lower-case to one of the four bucket keys makes parseVulnerabilities
throw (the indexing TypeError), rather than return buckets that silently
drop the finding. -/
theorem c5_unrecognized_severity_fails (entries : List ApiEntry)
    (h : ∃ v ∈ flatVulns entries, recognizedSeverity v = false) :
    ∃ msg, parseVulnerabilities (some ⟨some entries⟩) = .error msg := by
  obtain ⟨v, hv, hbad⟩ := h
  cases hres : parseEntries ⟨[], [], [], []⟩ entries with
  | error msg =>
    exact ⟨msg, by show parseEntries ⟨[], [], [], []⟩ entries = _; rw [hres]⟩
  | ok b2 =>
    exfalso
    have hall := parseEntries_ok_all entries _ _ hres
    rw [List.all_eq_true] at hall
    have := hall v hv
    rw [hbad] at this
    exact Bool.false_ne_true this

/-- A finding with a severity outside the four bucket keys. -/
def badVuln : RawVuln := ⟨"CVE-X", "strange", none, ⟨⟨"5.0", "NONE"⟩⟩⟩

/-- Witness for C5 at a concrete response holding one finding with the
unrecognized severity NONE. -/
theorem c5_witness :
    ∃ msg, parseVulnerabilities (some ⟨some [⟨[badVuln]⟩]⟩) = .error msg :=
  c5_unrecognized_severity_fails [⟨[badVuln]⟩] ⟨badVuln, by decide, by decide⟩

lemma inferOS_no_match : ∀ (tbl : List (String × String)) (b : List Char),
    (∀ p v, (p, v) ∈ tbl → jsIncludes (b.map Char.toLower) p.data = false) →
    inferOS tbl b = ⟨"o", "unknown", "unknown", "unknown"⟩ := by
  intro tbl
  induction tbl with
  | nil => intro b _; rfl
  | cons q rest ih =>
    intro b h
    obtain ⟨qp, qv⟩ := q
    have hq : jsIncludes (b.map Char.toLower) qp.data = false :=
      h qp qv (List.mem_cons_self _ _)
    rw [show inferOS ((qp, qv) :: rest) b = inferOS rest b from by simp [inferOS, hq]]
    exact ih b fun p v hm => h p v (List.mem_cons_of_mem _ hm)

lemma inferOS_first_match : ∀ (tbl : List (String × String)) (b : List Char)
    (i : Nat) (p v : String),
    tbl[i]? = some (p, v) →
    ((tbl.take i).all fun q => ! jsIncludes (b.map Char.toLower) q.1.data) = true →
    jsIncludes (b.map Char.toLower) p.data = true →
    inferOS tbl b = ⟨"o", v, p, osVersion p.data b⟩ := by
  intro tbl
  induction tbl with
  | nil => intro b i p v hget _ _; simp at hget
  | cons q rest ih =>
    intro b i p v hget hprev hm
    obtain ⟨qp, qv⟩ := q
    cases i with
    | zero =>
      simp only [List.getElem?_cons_zero, Option.some.injEq, Prod.mk.injEq] at hget
      obtain ⟨hp, hv⟩ := hget
      subst hp
      subst hv
      simp [inferOS, hm]
    | succ i =>
      simp only [List.getElem?_cons_succ] at hget
      rw [List.take_succ_cons] at hprev
      simp only [List.all_cons, Bool.and_eq_true] at hprev
      obtain ⟨hq, hrest⟩ := hprev
      have hq2 : jsIncludes (b.map Char.toLower) qp.data = false := by
        revert hq
        cases jsIncludes (b.map Char.toLower) qp.data <;> simp
      rw [show inferOS ((qp, qv) :: rest) b = inferOS rest b from by simp [inferOS, hq2]]
      exact ih b i p v hget hrest hm

/-- C1 counterexample: a banner that contains the substring ubuntu-22.04
but whose leftmost match of the keyword-anchored version pattern occurs
earlier reports version 7, not 22.04, so containing that substring does
not by itself determine the version the claim promises. -/
theorem c1_counterexample :
    jsIncludes "ubuntu7 ubuntu-22.04".data "ubuntu-22.04".data = true
    ∧ (inferSystemDetails "ubuntu7 ubuntu-22.04".data).operating_system
        = ⟨"o", "canonical", "ubuntu", "7"⟩
    ∧ (inferSystemDetails "ubuntu7 ubuntu-22.04".data).operating_system.version
        ≠ "22.04" := by
  refine ⟨by decide, by decide, by decide⟩

/-- C1 (amended): OS inference scans the fixed table in order with
case-insensitive substring matching and the first matching entry decides
vendor and product, the version being the leftmost capture of the
keyword-anchored pattern or the sentinel unknown; no table match leaves
the all-unknown default; a banner whose leftmost ubuntu version capture
is 22.04 (such as the banner ubuntu-22.04 itself) yields the canonical
ubuntu 22.04 identity. -/
theorem c1_os_inference :
    (∀ b : List Char,
        (∀ p v, (p, v) ∈ vendorTable → jsIncludes (b.map Char.toLower) p.data = false) →
        (inferSystemDetails b).operating_system = ⟨"o", "unknown", "unknown", "unknown"⟩)
    ∧ (∀ (b : List Char) (i : Nat) (p v : String),
        vendorTable[i]? = some (p, v) →
        ((vendorTable.take i).all fun q => ! jsIncludes (b.map Char.toLower) q.1.data) = true →
        jsIncludes (b.map Char.toLower) p.data = true →
        (inferSystemDetails b).operating_system = ⟨"o", v, p, osVersion p.data b⟩)
    ∧ (∀ b : List Char,
        jsIncludes (b.map Char.toLower) "ubuntu".data = true →
        findKeywordVersion "ubuntu".data b = some "22.04".data →
        (inferSystemDetails b).operating_system = ⟨"o", "canonical", "ubuntu", "22.04"⟩)
    ∧ (inferSystemDetails "ubuntu-22.04".data).operating_system
        = ⟨"o", "canonical", "ubuntu", "22.04"⟩ := by
  refine ⟨?_, ?_, ?_, by decide⟩
  · intro b h
    exact inferOS_no_match vendorTable b h
  · intro b i p v hget hprev hm
    exact inferOS_first_match vendorTable b i p v hget hprev hm
  · intro b h1 h2
    have h3 := inferOS_first_match vendorTable b 0 "ubuntu" "canonical" rfl rfl h1
    have h4 : osVersion "ubuntu".data b = "22.04" := by
      simp only [osVersion, h2]
    show inferOS vendorTable b = _
    rw [h3, h4]

/-- Witness for the amended C1: the second table entry fires for a
banner missed by the first, with the version taken by the anchored
pattern across the separating space. -/
theorem c1_witness :
    (inferSystemDetails "debian 12".data).operating_system
      = ⟨"o", "debian", "debian", "12"⟩ :=
  (c1_os_inference.2.1 "debian 12".data 1 "debian" "debian"
    (by decide) (by decide) (by decide)).trans (by decide)

lemma splitU_eq : ∀ l : List Char,
    splitU l = beforeUnderscore l ::
      (match afterUnderscore l with
       | some r => splitU r
       | none => []) := by
  intro l
  induction l with
  | nil => rfl
  | cons c rest ih =>
    by_cases hc : c = '_'
    · subst hc
      simp [splitU, beforeUnderscore, afterUnderscore]
    · simp [splitU, beforeUnderscore, afterUnderscore, hc, ih]

lemma splitU_headD : ∀ l : List Char, (splitU l).headD [] = beforeUnderscore l := by
  intro l
  rw [splitU_eq l]
  rfl

lemma splitU_getElem1 : ∀ l : List Char,
    (splitU l)[1]? = (afterUnderscore l).map fun r => beforeUnderscore r := by
  intro l
  rw [splitU_eq l]
  cases h : afterUnderscore l with
  | none => simp
  | some r =>
    have h2 : (beforeUnderscore l :: splitU r)[1]? = some (beforeUnderscore r) := by
      rw [splitU_eq r]
      simp
    exact h2

lemma afterUnderscore_isSome_iff : ∀ l : List Char,
    (afterUnderscore l).isSome = true ↔ '_' ∈ l := by
  intro l
  induction l with
  | nil => simp [afterUnderscore]
  | cons c rest ih =>
    by_cases hc : c = '_'
    · subst hc
      simp [afterUnderscore]
    · simp [afterUnderscore, hc, ih, List.mem_cons, Ne.symm hc]

lemma inferSoftware_of_match {b tok : List Char} (h : sshSoftwareMatch b = some tok) :
    (inferSystemDetails b).software
      = [⟨"a", "openbsd", String.mk ((beforeUnderscore tok).map Char.toLower),
          (afterUnderscore tok).map fun r => String.mk (beforeUnderscore r)⟩] := by
  show inferSoftware b = _
  simp only [inferSoftware, h]
  rw [splitU_headD, splitU_getElem1]
  cases afterUnderscore tok <;> rfl

/-- C2 counterexample: for a captured token with two underscores the
destructured split keeps only the text between the first and second
underscore as the version, not everything after the first underscore as
the claim states; the spec-side first-underscore split predicts 9.6_p1
while the code produces 9.6. -/
theorem c2_counterexample :
    sshSoftwareMatch "SSH-2.0-OpenSSH_9.6_p1".data = some "OpenSSH_9.6_p1".data
    ∧ (inferSystemDetails "SSH-2.0-OpenSSH_9.6_p1".data).software
        = [⟨"a", "openbsd", "openssh", some "9.6"⟩]
    ∧ (afterUnderscore "OpenSSH_9.6_p1".data).map String.mk = some "9.6_p1"
    ∧ (inferSystemDetails "SSH-2.0-OpenSSH_9.6_p1".data).software
        ≠ [⟨"a", "openbsd", "openssh", some "9.6_p1"⟩] := by
  refine ⟨by decide, by decide, by decide, by decide⟩

/-- C2 (amended): on an SSH banner match exactly one software entry is
produced, with vendor fixed to openbsd, product the lower-cased text
before the first underscore of the captured token, and version the text
between the first and second underscores (absent when the token has no
underscore); no SSH match yields an empty software sequence; a banner
whose captured token is OpenSSH_9.6 yields the openssh 9.6 entry. -/
theorem c2_ssh_software_inference :
    (∀ b tok : List Char, sshSoftwareMatch b = some tok →
        (inferSystemDetails b).software
          = [⟨"a", "openbsd", String.mk ((beforeUnderscore tok).map Char.toLower),
              (afterUnderscore tok).map fun r => String.mk (beforeUnderscore r)⟩])
    ∧ (∀ b : List Char, sshSoftwareMatch b = none →
        (inferSystemDetails b).software = [])
    ∧ (∀ b : List Char, sshSoftwareMatch b = some "OpenSSH_9.6".data →
        (inferSystemDetails b).software = [⟨"a", "openbsd", "openssh", some "9.6"⟩])
    ∧ (inferSystemDetails "SSH-2.0-OpenSSH_9.6".data).software
        = [⟨"a", "openbsd", "openssh", some "9.6"⟩] := by
  refine ⟨fun b tok h => inferSoftware_of_match h, ?_, ?_, by decide⟩
  · intro b h
    show inferSoftware b = _
    simp [inferSoftware, h]
  · intro b h
    exact (inferSoftware_of_match h).trans (by decide)

/-- Witness for the amended C2 at a token with two underscores: product
is the lower-cased first segment and version the middle segment. -/
theorem c2_witness :
    (inferSystemDetails "SSH-2.0-Sun_SSH_1.3".data).software
      = [⟨"a", "openbsd", "sun", some "SSH"⟩] :=
  (c2_ssh_software_inference.1 "SSH-2.0-Sun_SSH_1.3".data "Sun_SSH_1.3".data
    (by decide)).trans (by decide)

lemma inferOS_part : ∀ (tbl : List (String × String)) (b : List Char),
    (inferOS tbl b).part = "o" := by
  intro tbl
  induction tbl with
  | nil => intro b; rfl
  | cons q rest ih =>
    intro b
    obtain ⟨qp, qv⟩ := q
    by_cases hq : jsIncludes (b.map Char.toLower) qp.data = true
    · simp [inferOS, hq]
    · have hq2 : jsIncludes (b.map Char.toLower) qp.data = false := by
        revert hq
        cases jsIncludes (b.map Char.toLower) qp.data <;> simp
      simp [inferOS, hq2, ih b]

/-- C3 counterexample: an SSH token without an underscore produces a
software entry whose version field is absent (undefined), violating the
claim that every version field is a present string. -/
theorem c3_counterexample :
    (inferSystemDetails "SSH-2.0-dropbear".data).software
      = [⟨"a", "openbsd", "dropbear", none⟩]
    ∧ ((inferSystemDetails "SSH-2.0-dropbear".data).software.all
        fun e => e.version.isSome) = false := by
  refine ⟨by decide, by decide⟩

/-- C3 (amended): the operating-system record always carries the part
tag o with string fields defaulting to the sentinel unknown, and every
software entry carries part a and vendor openbsd; the software version
field, however, is present exactly when the matched SSH token contains
an underscore, and is absent (undefined) when it does not. -/
theorem c3_field_population (b : List Char) :
    (inferSystemDetails b).operating_system.part = "o"
    ∧ (∀ e ∈ (inferSystemDetails b).software, e.part = "a" ∧ e.vendor = "openbsd")
    ∧ (∀ tok, sshSoftwareMatch b = some tok →
        ∀ e ∈ (inferSystemDetails b).software, (e.version.isSome = true ↔ '_' ∈ tok)) := by
  refine ⟨inferOS_part vendorTable b, ?_, ?_⟩
  · intro e he
    cases h : sshSoftwareMatch b with
    | none =>
      rw [show (inferSystemDetails b).software = [] from by
        show inferSoftware b = _; simp [inferSoftware, h]] at he
      exact absurd he (List.not_mem_nil e)
    | some tok =>
      rw [inferSoftware_of_match h] at he
      simp only [List.mem_singleton] at he
      subst he
      exact ⟨rfl, rfl⟩
  · intro tok h e he
    rw [inferSoftware_of_match h] at he
    simp only [List.mem_singleton] at he
    subst he
    rw [← afterUnderscore_isSome_iff tok]
    cases afterUnderscore tok <;> simp

/-- Witness for the amended C3 at the underscore-free dropbear token:
the version field of the produced entry is absent. -/
theorem c3_witness :
    (inferSystemDetails "SSH-2.0-dropbear".data).operating_system.part = "o"
    ∧ ((⟨"a", "openbsd", "dropbear", none⟩ : SoftIdent).version.isSome = true
        ↔ '_' ∈ "dropbear".data) :=
  ⟨(c3_field_population "SSH-2.0-dropbear".data).1,
   (c3_field_population "SSH-2.0-dropbear".data).2.2 "dropbear".data (by decide)
     ⟨"a", "openbsd", "dropbear", none⟩ (by decide)⟩
